import Mathlib

/-!
# baresip audio drivers: the `conv_buf` swap buffer and the winwave buffer ring

A shallow embedding of

* `modules/audiounit/audiounit.c`: `struct conv_buf`, `conv_buf_alloc`,
  `get_nb_frames`, `init_data_write`, `init_data_read`;
* `modules/winwave/play.c`: `struct auplay_st`, the loop body of `dsp_write`,
  `waveOutCallback`, `write_stream_open`;
* `modules/winwave/src.c`: the loop body of `add_wave_in`, `waveInCallback`.

Conventions.  A `uint32_t` is a `Nat` below `2 ^ 32` and every `uint32_t`
operation reduces modulo `2 ^ 32`; a `size_t` counter is a `Nat` reduced modulo
`2 ^ 64`.  A pointer is a block together with a byte offset into it; the two
blocks `mem[0]` and `mem[1]` of a `conv_buf` are blocks `0` and `1`.  Byte
offsets inside a block are exact natural numbers.
-/

namespace Baresip

/-! ## Machine integers -/

/-- Number of values of a `uint32_t`. -/
def UINT32_MOD : Nat := 2 ^ 32

/-- Number of values of a `size_t` (64-bit target). -/
def SIZE_MOD : Nat := 2 ^ 64

/-- Addition of two `uint32_t` values. -/
def u32_add (a b : Nat) : Nat := (a + b) % UINT32_MOD

/-- Subtraction of two `uint32_t` values. -/
def u32_sub (a b : Nat) : Nat := (a + UINT32_MOD - b) % UINT32_MOD

/-- Multiplication of two `uint32_t` values. -/
def u32_mul (a b : Nat) : Nat := (a * b) % UINT32_MOD

/-! ## modules/audiounit/audiounit.c -/

/-- Constant `MAX_NB_FRAMES` of audiounit.c. -/
def MAX_NB_FRAMES : Nat := 4096

/-- Status type `OSStatus` (a signed 32-bit integer). -/
abbrev OSStatus := Int

/-- Status `noErr`. -/
def noErr : OSStatus := 0

/-- Status `kAudioUnitErr_TooManyFramesToProcess`. -/
def kAudioUnitErr_TooManyFramesToProcess : OSStatus := -10874

/-- Error number `EINVAL`. -/
def EINVAL : Nat := 22

/-- Error number `ENOMEM`. -/
def ENOMEM : Nat := 12

/-- A `void *` into one of the blocks: block number and byte offset. -/
structure Ptr where
  blk : Nat
  off : Nat
deriving DecidableEq, Repr

/-- Contents of the blocks: `m b j` is byte `j` of block `b`. -/
abbrev Memory := Nat → Nat → UInt8

/-- The `struct conv_buf`: `mem b` is the block `mem[b]` points to. -/
structure conv_buf where
  mem : Memory
  mem_idx : Nat
  nb_frames : Nat

/-- Result of a call with an `OSStatus` return value and a `void **data`
in-out parameter: the status, the buffer after the call, `*data` after the
call. -/
structure Ret where
  status : OSStatus
  buf : conv_buf
  data : Ptr

/-- The `n` bytes found at `p`. -/
def view (m : Memory) (p : Ptr) (n : Nat) : List UInt8 :=
  (List.range n).map (fun j => m p.blk (p.off + j))

/-- The libc `memcpy` of `n` bytes from `src` to `dst` (regions disjoint). -/
def memcpy (m : Memory) (dst src : Ptr) (n : Nat) : Memory :=
  fun b j =>
    if b = dst.blk ∧ dst.off ≤ j ∧ j < dst.off + n then
      m src.blk (src.off + (j - dst.off))
    else m b j

/-- The caller storing `n` bytes, byte `j` being `src j`, at the pointer it
was handed. -/
def fill (buf : conv_buf) (p : Ptr) (n : Nat) (src : Nat → UInt8) : conv_buf :=
  { buf with
    mem := fun b j =>
      if b = p.blk ∧ p.off ≤ j ∧ j < p.off + n then src (j - p.off)
      else buf.mem b j }

/-- Function `conv_buf_alloc`: `bufp` tells whether the out-parameter is
non-null, `zalloc_ok` whether `mem_zalloc` succeeded, `init` is the content of
the freshly allocated blocks. -/
def conv_buf_alloc (bufp zalloc_ok : Bool) (init : Memory) (_framesz : Nat) :
    Except Nat conv_buf :=
  if !bufp then .error EINVAL
  else if !zalloc_ok then .error ENOMEM
  else .ok { mem := init, mem_idx := 0, nb_frames := 0 }

/-- Function `get_nb_frames`. -/
def get_nb_frames (buf : Option conv_buf) : Except Nat Nat :=
  match buf with
  | none => .error EINVAL
  | some b => .ok b.nb_frames

/-- Function `init_data_write`. -/
def init_data_write (buf : conv_buf) (data : Ptr) (framesz nb_frames : Nat) : Ret :=
  let mem_idx := buf.mem_idx
  if u32_add buf.nb_frames nb_frames > MAX_NB_FRAMES then
    { status := kAudioUnitErr_TooManyFramesToProcess, buf := buf, data := data }
  else
    { status := noErr
      buf := { buf with nb_frames := u32_add buf.nb_frames nb_frames }
      data := { blk := mem_idx, off := buf.nb_frames * framesz } }

/-- Function `init_data_read`. -/
def init_data_read (buf : conv_buf) (data : Ptr) (framesz nb_frames : Nat) : Ret :=
  let mem_idx := buf.mem_idx
  if buf.nb_frames < nb_frames then
    { status := kAudioUnitErr_TooManyFramesToProcess, buf := buf, data := data }
  else
    let delta := u32_sub buf.nb_frames nb_frames
    let src : Ptr := { blk := mem_idx, off := nb_frames * framesz }
    { status := noErr
      buf :=
        { mem := memcpy buf.mem { blk := (mem_idx + 1) % 2, off := 0 } src (delta * framesz)
          mem_idx := (mem_idx + 1) % 2
          nb_frames := delta }
      data := { blk := mem_idx, off := 0 } }

/-- The buffer `conv_buf_alloc` returns on success. -/
def conv_buf_empty (init : Memory) : conv_buf :=
  { mem := init, mem_idx := 0, nb_frames := 0 }

/-! ### Basic facts -/

theorem conv_buf_alloc_ok (init : Memory) (framesz : Nat) :
    conv_buf_alloc true true init framesz = .ok (conv_buf_empty init) := rfl

theorem u32_add_small {a b : Nat} (h : a + b < 2 ^ 32) : u32_add a b = a + b := by
  unfold u32_add UINT32_MOD
  exact Nat.mod_eq_of_lt h

theorem u32_sub_small {a b : Nat} (hb : b ≤ a) (ha : a < 2 ^ 32) : u32_sub a b = a - b := by
  unfold u32_sub UINT32_MOD
  have : a + 2 ^ 32 - b = (a - b) + 2 ^ 32 := by omega
  rw [this, Nat.add_mod_right]
  exact Nat.mod_eq_of_lt (by omega)

/-- Without 32-bit wrap-around `init_data_write` is the capacity check of the
specification: it fails exactly when `f + c > MAX_NB_FRAMES`, a failure changes
nothing, a success sets `nb_frames` to `f + c`. -/
theorem init_data_write_no_wrap (buf : conv_buf) (data : Ptr) (framesz c : Nat)
    (h : buf.nb_frames + c < 2 ^ 32) :
    ((init_data_write buf data framesz c).status = kAudioUnitErr_TooManyFramesToProcess
        ↔ buf.nb_frames + c > MAX_NB_FRAMES) ∧
    ((init_data_write buf data framesz c).status = kAudioUnitErr_TooManyFramesToProcess →
        (init_data_write buf data framesz c).buf = buf ∧
        (init_data_write buf data framesz c).data = data) ∧
    ((init_data_write buf data framesz c).status = noErr →
        (init_data_write buf data framesz c).buf.nb_frames = buf.nb_frames + c) := by
  unfold init_data_write
  rw [u32_add_small h]
  by_cases hc : buf.nb_frames + c > MAX_NB_FRAMES
  · simp [hc, kAudioUnitErr_TooManyFramesToProcess, noErr]
  · simp [hc, kAudioUnitErr_TooManyFramesToProcess, noErr]

/-- Claim C1 fails on the code: with one frame buffered (after `write(1)` on a
fresh buffer) a request for `4294967295` frames has the true sum
`1 + 4294967295 = 4294967296 > MAX_NB_FRAMES`, yet the `uint32_t` sum wraps to
`0`, `init_data_write` returns `noErr`, hands out a pointer and sets
`nb_frames` to `0` instead of failing. -/
theorem init_data_write_wrapped_sum_accepted (init : Memory) (data : Ptr) (framesz : Nat) :
    (init_data_write (conv_buf_empty init) data framesz 1).status = noErr ∧
    (init_data_write (conv_buf_empty init) data framesz 1).buf.nb_frames = 1 ∧
    4294967295 < UINT32_MOD ∧
    (init_data_write (conv_buf_empty init) data framesz 1).buf.nb_frames + 4294967295
      > MAX_NB_FRAMES ∧
    (init_data_write (init_data_write (conv_buf_empty init) data framesz 1).buf data
        framesz 4294967295).status = noErr ∧
    (init_data_write (init_data_write (conv_buf_empty init) data framesz 1).buf data
        framesz 4294967295).buf.nb_frames = 0 ∧
    (init_data_write (init_data_write (conv_buf_empty init) data framesz 1).buf data
        framesz 4294967295).data = { blk := 0, off := 1 * framesz } := by
  have h1 : u32_add 0 1 = 1 := by norm_num [u32_add, UINT32_MOD]
  have h2 : u32_add 1 4294967295 = 0 := by norm_num [u32_add, UINT32_MOD]
  have e1 : init_data_write (conv_buf_empty init) data framesz 1 =
      { status := noErr, buf := { mem := init, mem_idx := 0, nb_frames := 1 },
        data := { blk := 0, off := 0 * framesz } } := by
    simp [init_data_write, conv_buf_empty, h1, MAX_NB_FRAMES]
  rw [e1]
  refine ⟨rfl, rfl, by norm_num [UINT32_MOD], by norm_num [MAX_NB_FRAMES], ?_, ?_, ?_⟩ <;>
    simp [init_data_write, h2, MAX_NB_FRAMES]

/-! ### Successful and failing reads -/

theorem view_length (m : Memory) (p : Ptr) (n : Nat) : (view m p n).length = n := by
  simp [view]

theorem view_congr {m m2 : Memory} {p q : Ptr} {n : Nat}
    (h : ∀ j, j < n → m p.blk (p.off + j) = m2 q.blk (q.off + j)) :
    view m p n = view m2 q n := by
  unfold view
  apply List.map_congr_left
  intro j hj
  exact h j (List.mem_range.mp hj)

theorem other_ne (i : Nat) : (i + 1) % 2 ≠ i := by omega

theorem memcpy_other (m : Memory) (dst src : Ptr) (n b j : Nat) (h : b ≠ dst.blk) :
    memcpy m dst src n b j = m b j := by
  simp [memcpy, h]

theorem memcpy_dst (m : Memory) (dst src : Ptr) (n j : Nat) (h0 : dst.off ≤ j)
    (h1 : j < dst.off + n) :
    memcpy m dst src n dst.blk j = m src.blk (src.off + (j - dst.off)) := by
  simp [memcpy, h0, h1]

theorem init_data_read_ok (buf : conv_buf) (data : Ptr) (framesz c : Nat)
    (hc : c ≤ buf.nb_frames) :
    init_data_read buf data framesz c =
      { status := noErr
        buf :=
          { mem := memcpy buf.mem { blk := (buf.mem_idx + 1) % 2, off := 0 }
              { blk := buf.mem_idx, off := c * framesz }
              (u32_sub buf.nb_frames c * framesz)
            mem_idx := (buf.mem_idx + 1) % 2
            nb_frames := u32_sub buf.nb_frames c }
        data := { blk := buf.mem_idx, off := 0 } } := by
  unfold init_data_read
  simp [Nat.not_lt.mpr hc]

theorem init_data_read_err (buf : conv_buf) (data : Ptr) (framesz c : Nat)
    (hc : buf.nb_frames < c) :
    init_data_read buf data framesz c =
      { status := kAudioUnitErr_TooManyFramesToProcess, buf := buf, data := data } := by
  unfold init_data_read
  simp [hc]

/-- Claim C3: for a buffer holding `f` frames and a count `c ≤ f`,
`init_data_read` returns `noErr`; `*data` is the start of the active block and
the `c` frames found there are the `c` oldest buffered frames (the active block
is not modified); `nb_frames` becomes `f - c`; the other block becomes the
active one and its first `f - c` frames are the frames `c .. f-1` of the
previously active block. -/
theorem init_data_read_success (buf : conv_buf) (data : Ptr) (framesz c : Nat)
    (hf : buf.nb_frames < UINT32_MOD) (hc : c ≤ buf.nb_frames) :
    (init_data_read buf data framesz c).status = noErr ∧
    (init_data_read buf data framesz c).data = { blk := buf.mem_idx, off := 0 } ∧
    (∀ j, (init_data_read buf data framesz c).buf.mem buf.mem_idx j = buf.mem buf.mem_idx j) ∧
    view (init_data_read buf data framesz c).buf.mem
        (init_data_read buf data framesz c).data (c * framesz)
      = view buf.mem { blk := buf.mem_idx, off := 0 } (c * framesz) ∧
    (init_data_read buf data framesz c).buf.nb_frames = buf.nb_frames - c ∧
    (init_data_read buf data framesz c).buf.mem_idx = (buf.mem_idx + 1) % 2 ∧
    (init_data_read buf data framesz c).buf.mem_idx ≠ buf.mem_idx ∧
    view (init_data_read buf data framesz c).buf.mem
        { blk := (init_data_read buf data framesz c).buf.mem_idx, off := 0 }
        ((buf.nb_frames - c) * framesz)
      = view buf.mem { blk := buf.mem_idx, off := c * framesz }
          ((buf.nb_frames - c) * framesz) := by
  have hs : u32_sub buf.nb_frames c = buf.nb_frames - c := u32_sub_small hc hf
  rw [init_data_read_ok buf data framesz c hc, hs]
  have hne : buf.mem_idx ≠ (buf.mem_idx + 1) % 2 := fun h => other_ne _ h.symm
  refine ⟨rfl, rfl, ?_, ?_, rfl, rfl, other_ne _, ?_⟩
  · intro j
    simp [memcpy, hne]
  · apply view_congr
    intro j _
    simp [memcpy, hne]
  · apply view_congr
    intro j hj
    simp [memcpy, hj]

/-- Claim C4: `init_data_read` returns `kAudioUnitErr_TooManyFramesToProcess`
exactly when fewer than `c` frames are buffered (`f < c`, and otherwise it
returns `noErr`); a failed read returns the buffer (`nb_frames`, `mem_idx`, the
contents of both blocks) and `*data` as they were. -/
theorem init_data_read_fails_iff (buf : conv_buf) (data : Ptr) (framesz c : Nat) :
    ((init_data_read buf data framesz c).status = kAudioUnitErr_TooManyFramesToProcess
        ↔ buf.nb_frames < c) ∧
    ((init_data_read buf data framesz c).status ≠ kAudioUnitErr_TooManyFramesToProcess
        → (init_data_read buf data framesz c).status = noErr) ∧
    ((init_data_read buf data framesz c).status = kAudioUnitErr_TooManyFramesToProcess →
        (init_data_read buf data framesz c).buf = buf ∧
        (init_data_read buf data framesz c).data = data) := by
  by_cases hc : buf.nb_frames < c
  · rw [init_data_read_err buf data framesz c hc]
    simp [hc]
  · rw [init_data_read_ok buf data framesz c (Nat.not_lt.mp hc)]
    simp [hc, noErr, kAudioUnitErr_TooManyFramesToProcess]

/-- The scenario of the specification: a fresh (zeroed) buffer with 4-byte
frames after `write(1000)` and `write(500)`. -/
def scenario_1500 : conv_buf :=
  (init_data_write
    (init_data_write (conv_buf_empty (fun _ _ => 0)) { blk := 0, off := 0 } 4 1000).buf
    { blk := 0, off := 0 } 4 500).buf

theorem scenario_1500_nb_frames : scenario_1500.nb_frames = 1500 := by
  have h1 : u32_add 0 1000 = 1000 := by norm_num [u32_add, UINT32_MOD]
  have h2 : u32_add 1000 500 = 1500 := by norm_num [u32_add, UINT32_MOD]
  simp [scenario_1500, init_data_write, conv_buf_empty, h1, h2, MAX_NB_FRAMES]

/-- Witness of C3, the scenario of the specification: `write(1000)`,
`write(500)`, `read(1200)` succeeds, returns 1200 frames of 4 bytes and leaves
300 frames. -/
theorem init_data_read_success_witness :
    scenario_1500.nb_frames < UINT32_MOD ∧ 1200 ≤ scenario_1500.nb_frames ∧
    (init_data_read scenario_1500 { blk := 0, off := 0 } 4 1200).status = noErr ∧
    (view (init_data_read scenario_1500 { blk := 0, off := 0 } 4 1200).buf.mem
        (init_data_read scenario_1500 { blk := 0, off := 0 } 4 1200).data
        (1200 * 4)).length = 1200 * 4 ∧
    (init_data_read scenario_1500 { blk := 0, off := 0 } 4 1200).buf.nb_frames = 300 :=
  have hf : scenario_1500.nb_frames < UINT32_MOD := by
    rw [scenario_1500_nb_frames]; norm_num [UINT32_MOD]
  have hc : 1200 ≤ scenario_1500.nb_frames := by
    rw [scenario_1500_nb_frames]; norm_num
  have h := init_data_read_success scenario_1500 { blk := 0, off := 0 } 4 1200 hf hc
  ⟨hf, hc, h.1, view_length _ _ _, by rw [h.2.2.2.2.1, scenario_1500_nb_frames]⟩

/-! ### Two consecutive reads -/

/-- Claim C6: with at least `2 * c` frames buffered, two consecutive
`init_data_read` calls for `c` frames both succeed; the first view starts block
`mem[i]` (`i` the active index) and the second starts the other block
`mem[(i+1) % 2]`, which is `mem[1 - i]` for `i` in `{0, 1}`, so the views lie
in different blocks; the first view holds frames `0 .. c-1` and the second view
frames `c .. 2c-1` of the data buffered before the first read; `nb_frames` ends
`2 * c` lower. -/
theorem init_data_read_twice (buf : conv_buf) (data : Ptr) (framesz c : Nat)
    (hf : buf.nb_frames < UINT32_MOD) (hc : 2 * c ≤ buf.nb_frames) :
    (init_data_read buf data framesz c).status = noErr ∧
    (init_data_read (init_data_read buf data framesz c).buf
        (init_data_read buf data framesz c).data framesz c).status = noErr ∧
    (init_data_read buf data framesz c).data = { blk := buf.mem_idx, off := 0 } ∧
    (init_data_read (init_data_read buf data framesz c).buf
        (init_data_read buf data framesz c).data framesz c).data
      = { blk := (buf.mem_idx + 1) % 2, off := 0 } ∧
    (buf.mem_idx < 2 → (buf.mem_idx + 1) % 2 = 1 - buf.mem_idx) ∧
    (init_data_read buf data framesz c).data.blk ≠
      (init_data_read (init_data_read buf data framesz c).buf
        (init_data_read buf data framesz c).data framesz c).data.blk ∧
    view (init_data_read buf data framesz c).buf.mem
        (init_data_read buf data framesz c).data (c * framesz)
      = view buf.mem { blk := buf.mem_idx, off := 0 } (c * framesz) ∧
    view (init_data_read (init_data_read buf data framesz c).buf
          (init_data_read buf data framesz c).data framesz c).buf.mem
        (init_data_read (init_data_read buf data framesz c).buf
          (init_data_read buf data framesz c).data framesz c).data (c * framesz)
      = view buf.mem { blk := buf.mem_idx, off := c * framesz } (c * framesz) ∧
    (init_data_read (init_data_read buf data framesz c).buf
        (init_data_read buf data framesz c).data framesz c).buf.nb_frames
      = buf.nb_frames - 2 * c := by
  have hc1 : c ≤ buf.nb_frames := by omega
  have hs1 : u32_sub buf.nb_frames c = buf.nb_frames - c := u32_sub_small hc1 hf
  have hc2 : c ≤ buf.nb_frames - c := by omega
  have hs2 : u32_sub (buf.nb_frames - c) c = buf.nb_frames - 2 * c := by
    rw [u32_sub_small hc2 (by unfold UINT32_MOD at hf; omega)]; omega
  have hne : buf.mem_idx ≠ (buf.mem_idx + 1) % 2 := fun h => other_ne _ h.symm
  have hne2 : (buf.mem_idx + 1) % 2 ≠ ((buf.mem_idx + 1) % 2 + 1) % 2 :=
    fun h => other_ne _ h.symm
  rw [init_data_read_ok buf data framesz c hc1, hs1]
  rw [init_data_read_ok _ _ framesz c hc2]
  rw [hs2]
  refine ⟨rfl, rfl, rfl, rfl, fun h => by omega, hne, ?_, ?_, rfl⟩
  · apply view_congr
    intro j _
    exact memcpy_other _ _ _ _ _ _ hne
  · apply view_congr
    intro j hj
    have hlt : j < (buf.nb_frames - c) * framesz :=
      lt_of_lt_of_le hj (Nat.mul_le_mul_right _ hc2)
    show memcpy (memcpy buf.mem _ _ _) _ _ _ ((buf.mem_idx + 1) % 2) (0 + j) = _
    rw [memcpy_other _ _ _ _ _ _ hne2]
    rw [memcpy_dst _ _ _ _ _ (Nat.zero_le _) (by simpa using hlt)]
    simp

/-- Witness of C6 on the scenario buffer (1500 frames): two reads of 700. -/
theorem init_data_read_twice_witness :
    scenario_1500.nb_frames < UINT32_MOD ∧ 2 * 700 ≤ scenario_1500.nb_frames ∧
    (init_data_read (init_data_read scenario_1500 { blk := 0, off := 0 } 4 700).buf
        (init_data_read scenario_1500 { blk := 0, off := 0 } 4 700).data 4 700).buf.nb_frames
      = 100 :=
  have hf : scenario_1500.nb_frames < UINT32_MOD := by
    rw [scenario_1500_nb_frames]; norm_num [UINT32_MOD]
  have hc : 2 * 700 ≤ scenario_1500.nb_frames := by
    rw [scenario_1500_nb_frames]; norm_num
  have h := init_data_read_twice scenario_1500 { blk := 0, off := 0 } 4 700 hf hc
  ⟨hf, hc, by rw [h.2.2.2.2.2.2.2.2, scenario_1500_nb_frames]⟩

/-! ### Reachable buffers -/

/-- What a client can do with a `conv_buf`: call `init_data_write`, call
`init_data_read`, store bytes through a pointer. -/
inductive conv_call where
  | write (framesz nb_frames : Nat)
  | read (framesz nb_frames : Nat)
  | store (p : Ptr) (n : Nat) (src : Nat → UInt8)

/-- Effect of one call on the buffer and on the client's `data` variable. -/
def conv_call.apply (s : conv_buf × Ptr) : conv_call → conv_buf × Ptr
  | .write framesz n => ((init_data_write s.1 s.2 framesz n).buf,
      (init_data_write s.1 s.2 framesz n).data)
  | .read framesz n => ((init_data_read s.1 s.2 framesz n).buf,
      (init_data_read s.1 s.2 framesz n).data)
  | .store p n src => (fill s.1 p n src, s.2)

/-- Effect of a sequence of calls. -/
def conv_calls (s : conv_buf × Ptr) (l : List conv_call) : conv_buf × Ptr :=
  l.foldl conv_call.apply s

/-- The invariant of `struct conv_buf`. -/
def conv_buf.valid (b : conv_buf) : Prop :=
  b.nb_frames ≤ MAX_NB_FRAMES ∧ (b.mem_idx = 0 ∨ b.mem_idx = 1)

theorem init_data_write_valid (b : conv_buf) (data : Ptr) (framesz n : Nat)
    (h : b.valid) : (init_data_write b data framesz n).buf.valid := by
  unfold init_data_write
  by_cases hc : u32_add b.nb_frames n > MAX_NB_FRAMES
  · simpa [hc] using h
  · simp only [hc, if_false]
    exact ⟨Nat.not_lt.mp hc, h.2⟩

theorem init_data_read_valid (b : conv_buf) (data : Ptr) (framesz n : Nat)
    (h : b.valid) : (init_data_read b data framesz n).buf.valid := by
  by_cases hc : b.nb_frames < n
  · rw [init_data_read_err b data framesz n hc]; exact h
  · have hle : n ≤ b.nb_frames := Nat.not_lt.mp hc
    have hf : b.nb_frames < 2 ^ 32 := by
      have := h.1; unfold MAX_NB_FRAMES at this; omega
    rw [init_data_read_ok b data framesz n hle, u32_sub_small hle hf]
    refine ⟨?_, ?_⟩
    · have := h.1
      show b.nb_frames - n ≤ MAX_NB_FRAMES
      omega
    · show (b.mem_idx + 1) % 2 = 0 ∨ (b.mem_idx + 1) % 2 = 1
      omega

theorem conv_call_apply_valid (s : conv_buf × Ptr) (call : conv_call) (h : s.1.valid) :
    (call.apply s).1.valid := by
  cases call with
  | write framesz n => exact init_data_write_valid _ _ _ _ h
  | read framesz n => exact init_data_read_valid _ _ _ _ h
  | store p n src => exact h

theorem conv_calls_valid (l : List conv_call) (s : conv_buf × Ptr) (h : s.1.valid) :
    (conv_calls s l).1.valid := by
  induction l generalizing s with
  | nil => exact h
  | cons call l ih => exact ih _ (conv_call_apply_valid s call h)

/-- Claim C5: every buffer reached from a successful `conv_buf_alloc` by any
sequence of `init_data_write` and `init_data_read` calls (any frame sizes, any
counts, succeeding or failing, the client storing bytes anywhere in between)
has `nb_frames ≤ MAX_NB_FRAMES = 4096` and `mem_idx` equal to `0` or `1`. -/
theorem conv_buf_reachable_bounds (init : Memory) (framesz : Nat) (b : conv_buf)
    (data : Ptr) (l : List conv_call)
    (halloc : conv_buf_alloc true true init framesz = .ok b) :
    (conv_calls (b, data) l).1.nb_frames ≤ 4096 ∧
    ((conv_calls (b, data) l).1.mem_idx = 0 ∨ (conv_calls (b, data) l).1.mem_idx = 1) := by
  have hb : b = conv_buf_empty init := by
    simp [conv_buf_alloc] at halloc
    rw [← halloc]; rfl
  subst hb
  exact conv_calls_valid l _ ⟨Nat.zero_le _, Or.inl rfl⟩

/-- Witness of C5: a fresh buffer, then `write(4000)`, a wrapping
`write(4294967295)`, a failing `read(5000)` and `read(1)`. -/
theorem conv_buf_reachable_bounds_witness :
    conv_buf_alloc true true (fun _ _ => 0) 4 = .ok (conv_buf_empty (fun _ _ => 0)) ∧
    (conv_calls (conv_buf_empty (fun _ _ => 0), { blk := 0, off := 0 })
      [.write 4 4000, .write 4 4294967295, .read 4 5000, .read 4 1]).1.nb_frames ≤ 4096 :=
  ⟨rfl, (conv_buf_reachable_bounds (fun _ _ => 0) 4 _ { blk := 0, off := 0 }
      [.write 4 4000, .write 4 4294967295, .read 4 5000, .read 4 1] rfl).1⟩

/-! ### Sequences of successful writes and reads -/

/-- One client operation on the relay: `write c src` is `init_data_write` for
`c` frames followed by the client storing `c` frames (byte `j` being `src j`)
at the pointer it was handed; `read c` is `init_data_read` for `c` frames
followed by the client taking the `c` frames at the pointer it was handed. -/
inductive relay_op where
  | write (c : Nat) (src : Nat → UInt8)
  | read (c : Nat)

/-- The buffer, the client's `data` variable and the bytes taken by the reads so
far. -/
structure relay_state where
  buf : conv_buf
  data : Ptr
  out : List UInt8

/-- One operation; `none` when the call does not return `noErr`. -/
def relay_step (framesz : Nat) (s : relay_state) : relay_op → Option relay_state
  | .write c src =>
    if (init_data_write s.buf s.data framesz c).status = noErr then
      some { buf := fill (init_data_write s.buf s.data framesz c).buf
                      (init_data_write s.buf s.data framesz c).data (c * framesz) src
             data := (init_data_write s.buf s.data framesz c).data
             out := s.out }
    else none
  | .read c =>
    if (init_data_read s.buf s.data framesz c).status = noErr then
      some { buf := (init_data_read s.buf s.data framesz c).buf
             data := (init_data_read s.buf s.data framesz c).data
             out := s.out ++ view (init_data_read s.buf s.data framesz c).buf.mem
                      (init_data_read s.buf s.data framesz c).data (c * framesz) }
    else none

/-- A sequence of operations, all of which have to succeed. -/
def relay_run (framesz : Nat) (s : relay_state) : List relay_op → Option relay_state
  | [] => some s
  | op :: ops => (relay_step framesz s op).bind (fun s2 => relay_run framesz s2 ops)

/-- The bytes stored by the writes of a sequence, in call order. -/
def written_bytes (framesz : Nat) : List relay_op → List UInt8
  | [] => []
  | .write c src :: ops => (List.range (c * framesz)).map src ++ written_bytes framesz ops
  | .read _ :: ops => written_bytes framesz ops

/-- The sum `c1 + ... + ck` of the counts of the writes of a sequence. -/
def written_frames : List relay_op → Nat
  | [] => 0
  | .write c _ :: ops => c + written_frames ops
  | .read _ :: ops => written_frames ops

/-- The sum of the counts of the reads of a sequence. -/
def read_frames : List relay_op → Nat
  | [] => 0
  | .write _ _ :: ops => read_frames ops
  | .read c :: ops => c + read_frames ops

/-- The count of an operation. -/
def relay_op.count : relay_op → Nat
  | .write c _ => c
  | .read c => c

/-- The buffered frames: the first `nb_frames` frames of the active block. -/
def pending (framesz : Nat) (b : conv_buf) : List UInt8 :=
  view b.mem { blk := b.mem_idx, off := 0 } (b.nb_frames * framesz)

/-- The state of a client that has just allocated its buffer. -/
def relay_start (init : Memory) (data : Ptr) : relay_state :=
  { buf := conv_buf_empty init, data := data, out := [] }

theorem view_add (m : Memory) (p : Ptr) (a b : Nat) :
    view m p (a + b) = view m p a ++ view m { blk := p.blk, off := p.off + a } b := by
  unfold view
  rw [List.range_add, List.map_append, List.map_map]
  congr 1
  apply List.map_congr_left
  intro j _
  simp [Nat.add_assoc]

theorem fill_mem_outside (buf : conv_buf) (p : Ptr) (n : Nat) (src : Nat → UInt8) (b j : Nat)
    (h : ¬ (b = p.blk ∧ p.off ≤ j ∧ j < p.off + n)) :
    (fill buf p n src).mem b j = buf.mem b j := by
  simp only [fill, h, if_false]

theorem fill_mem_inside (buf : conv_buf) (p : Ptr) (n : Nat) (src : Nat → UInt8) (j : Nat)
    (h0 : p.off ≤ j) (h1 : j < p.off + n) :
    (fill buf p n src).mem p.blk j = src (j - p.off) := by
  simp [fill, h0, h1]

theorem init_data_write_ok (buf : conv_buf) (data : Ptr) (framesz c : Nat)
    (h : ¬ u32_add buf.nb_frames c > MAX_NB_FRAMES) :
    init_data_write buf data framesz c =
      { status := noErr
        buf := { buf with nb_frames := u32_add buf.nb_frames c }
        data := { blk := buf.mem_idx, off := buf.nb_frames * framesz } } := by
  unfold init_data_write
  simp only [h, if_false]

theorem init_data_write_err (buf : conv_buf) (data : Ptr) (framesz c : Nat)
    (h : u32_add buf.nb_frames c > MAX_NB_FRAMES) :
    init_data_write buf data framesz c =
      { status := kAudioUnitErr_TooManyFramesToProcess, buf := buf, data := data } := by
  unfold init_data_write
  simp only [h, if_true]

theorem relay_step_write (framesz : Nat) (s s2 : relay_state) (c : Nat) (src : Nat → UInt8)
    (hv : s.buf.nb_frames ≤ MAX_NB_FRAMES) (hc : c + MAX_NB_FRAMES < UINT32_MOD)
    (h : relay_step framesz s (.write c src) = some s2) :
    s2.out = s.out ∧
    pending framesz s2.buf = pending framesz s.buf ++ (List.range (c * framesz)).map src ∧
    s2.buf.nb_frames = s.buf.nb_frames + c ∧ s2.buf.nb_frames ≤ MAX_NB_FRAMES := by
  have hsum : u32_add s.buf.nb_frames c = s.buf.nb_frames + c :=
    u32_add_small (by unfold UINT32_MOD at hc; omega)
  simp only [relay_step] at h
  by_cases hg : u32_add s.buf.nb_frames c > MAX_NB_FRAMES
  · rw [init_data_write_err _ _ _ _ hg] at h
    simp [kAudioUnitErr_TooManyFramesToProcess, noErr] at h
  · rw [init_data_write_ok _ _ _ _ hg] at h
    simp only [if_true, Option.some.injEq] at h
    subst h
    rw [hsum] at hg
    refine ⟨rfl, ?_, hsum, ?_⟩
    · show view _ _ (u32_add s.buf.nb_frames c * framesz) = _
      rw [hsum, Nat.add_mul, view_add]
      congr 1
      · apply view_congr
        intro j hj
        apply fill_mem_outside
        simp only [Nat.zero_add]
        omega
      · unfold view
        apply List.map_congr_left
        intro j hj
        have hj2 : j < c * framesz := List.mem_range.mp hj
        show (fill _ { blk := s.buf.mem_idx, off := s.buf.nb_frames * framesz } _ _).mem
          s.buf.mem_idx (0 + s.buf.nb_frames * framesz + j) = src j
        refine (fill_mem_inside _
          { blk := s.buf.mem_idx, off := s.buf.nb_frames * framesz } (c * framesz) src
          (0 + s.buf.nb_frames * framesz + j) (by simp) (by simp; omega)).trans ?_
        congr 1
        simp
    · show u32_add s.buf.nb_frames c ≤ _
      rw [hsum]; exact Nat.not_lt.mp hg

theorem relay_step_read (framesz : Nat) (s s2 : relay_state) (c : Nat)
    (hv : s.buf.nb_frames ≤ MAX_NB_FRAMES)
    (h : relay_step framesz s (.read c) = some s2) :
    s2.out ++ pending framesz s2.buf = s.out ++ pending framesz s.buf ∧
    s2.buf.nb_frames + c = s.buf.nb_frames ∧ s2.buf.nb_frames ≤ MAX_NB_FRAMES := by
  have hf : s.buf.nb_frames < UINT32_MOD := by
    unfold MAX_NB_FRAMES at hv; unfold UINT32_MOD; omega
  simp only [relay_step] at h
  by_cases hc : s.buf.nb_frames < c
  · rw [init_data_read_err _ _ _ _ hc] at h
    simp [kAudioUnitErr_TooManyFramesToProcess, noErr] at h
  · have hle : c ≤ s.buf.nb_frames := Nat.not_lt.mp hc
    obtain ⟨h1, _, _, h4, h5, h6, _, h8⟩ :=
      init_data_read_success s.buf s.data framesz c hf hle
    simp only [h1, if_true, Option.some.injEq] at h
    subst h
    refine ⟨?_, ?_, ?_⟩
    · show (s.out ++ _) ++ view _ _ _ = s.out ++ view _ _ _
      rw [h4, h5, h8, List.append_assoc]
      congr 1
      have hsplit : s.buf.nb_frames * framesz
          = c * framesz + (s.buf.nb_frames - c) * framesz := by
        rw [← Nat.add_mul]; congr 1; omega
      conv_rhs => rw [hsplit, view_add]
      simp
    · show (init_data_read s.buf s.data framesz c).buf.nb_frames + c = _
      rw [h5]; omega
    · show (init_data_read s.buf s.data framesz c).buf.nb_frames ≤ _
      rw [h5]; omega

theorem relay_run_conserves (framesz : Nat) (ops : List relay_op) (s s2 : relay_state)
    (hv : s.buf.nb_frames ≤ MAX_NB_FRAMES)
    (hc : ∀ op ∈ ops, op.count + MAX_NB_FRAMES < UINT32_MOD)
    (h : relay_run framesz s ops = some s2) :
    s2.out ++ pending framesz s2.buf
      = s.out ++ pending framesz s.buf ++ written_bytes framesz ops ∧
    read_frames ops + s2.buf.nb_frames = s.buf.nb_frames + written_frames ops := by
  induction ops generalizing s with
  | nil =>
    simp only [relay_run, Option.some.injEq] at h
    subst h
    simp [written_bytes, read_frames, written_frames]
  | cons op ops ih =>
    simp only [relay_run] at h
    cases hstep : relay_step framesz s op with
    | none => rw [hstep] at h; simp at h
    | some s1 =>
      rw [hstep] at h
      simp only [Option.some_bind] at h
      have hc2 : ∀ o ∈ ops, o.count + MAX_NB_FRAMES < UINT32_MOD :=
        fun o ho => hc o (List.mem_cons_of_mem _ ho)
      cases op with
      | write c src =>
        obtain ⟨ho, hp, hn, hv1⟩ :=
          relay_step_write framesz s s1 c src hv (hc _ (List.mem_cons_self _ _)) hstep
        obtain ⟨ih1, ih2⟩ := ih s1 hv1 hc2 h
        refine ⟨?_, ?_⟩
        · rw [ih1, ho, hp]
          simp [written_bytes, List.append_assoc]
        · simp only [read_frames, written_frames]
          omega
      | read c =>
        obtain ⟨hp, hn, hv1⟩ := relay_step_read framesz s s1 c hv hstep
        obtain ⟨ih1, ih2⟩ := ih s1 hv1 hc2 h
        refine ⟨?_, ?_⟩
        · rw [ih1, hp]
          simp [written_bytes]
        · simp only [read_frames, written_frames]
          omega

/-- Apart from 32-bit wrap-around (every count below `2 ^ 32 - 4096`), the
order and conservation property holds: after any sequence of successful writes
and reads on a fresh buffer, the bytes taken by the reads are an initial segment
of the bytes written, and the frames read plus the frames still buffered are
the frames written. -/
theorem relay_run_no_wrap (framesz : Nat) (init : Memory) (data : Ptr)
    (ops : List relay_op) (s : relay_state)
    (hc : ∀ op ∈ ops, op.count + MAX_NB_FRAMES < UINT32_MOD)
    (h : relay_run framesz (relay_start init data) ops = some s) :
    s.out <+: written_bytes framesz ops ∧
    s.out.length = read_frames ops * framesz ∧
    read_frames ops + s.buf.nb_frames = written_frames ops := by
  obtain ⟨h1, h2⟩ := relay_run_conserves framesz ops (relay_start init data) s
    (Nat.zero_le _) hc h
  have hp0 : pending framesz (relay_start init data).buf = [] := by
    simp [pending, relay_start, conv_buf_empty, view]
  rw [hp0] at h1
  simp only [relay_start, List.nil_append, List.append_nil] at h1
  have h2b : read_frames ops + s.buf.nb_frames = written_frames ops := by
    simpa [relay_start, conv_buf_empty] using h2
  refine ⟨⟨pending framesz s.buf, h1⟩, ?_, h2b⟩
  have hlen := congrArg List.length h1
  have hw : (written_bytes framesz ops).length = written_frames ops * framesz := by
    clear h h1 h2 h2b hlen hc
    induction ops with
    | nil => simp [written_bytes, written_frames]
    | cons op ops ih =>
      cases op with
      | write c src => simp [written_bytes, written_frames, ih, Nat.add_mul]
      | read c => simp [written_bytes, written_frames, ih]
  rw [List.length_append, hw, ← h2b] at hlen
  simp only [pending, view_length, Nat.add_mul] at hlen
  omega

theorem relay_run_write_write (framesz : Nat) (init : Memory) (data : Ptr) (c1 c2 : Nat)
    (src1 src2 : Nat → UInt8) (h1 : ¬ u32_add 0 c1 > MAX_NB_FRAMES)
    (h2 : ¬ u32_add (u32_add 0 c1) c2 > MAX_NB_FRAMES) :
    (relay_run framesz (relay_start init data) [.write c1 src1, .write c2 src2]).map
      (fun s => (s.out, s.buf.nb_frames)) = some ([], u32_add (u32_add 0 c1) c2) := by
  have e1 : init_data_write (conv_buf_empty init) data framesz c1 =
      { status := noErr
        buf := { conv_buf_empty init with nb_frames := u32_add 0 c1 }
        data := { blk := 0, off := 0 * framesz } } :=
    init_data_write_ok (conv_buf_empty init) data framesz c1 h1
  simp only [relay_run, relay_step, relay_start, e1, if_true, Option.some_bind]
  have e2 : ∀ (d : Ptr) (n : Nat) (src : Nat → UInt8),
      init_data_write
        (fill { conv_buf_empty init with nb_frames := u32_add 0 c1 } d n src) d framesz c2 =
      { status := noErr
        buf := { fill { conv_buf_empty init with nb_frames := u32_add 0 c1 } d n src with
                 nb_frames := u32_add (u32_add 0 c1) c2 }
        data := { blk := 0, off := u32_add 0 c1 * framesz } } :=
    fun d n src => init_data_write_ok _ d framesz c2 h2
  rw [e2]
  rfl

/-- Claim C2 fails on the code: on a fresh buffer `write(1)` and
`write(4294967295)` both return `noErr` (the `uint32_t` sum wraps to `0`), no
read has taken a frame and `nb_frames` ends as `0`, while the counts written sum
to `4294967296`: frames read plus frames buffered is not `c1 + c2`. -/
theorem relay_run_wrapped_write_loses_frames :
    (relay_run 4 (relay_start (fun _ _ => 0) { blk := 0, off := 0 })
        [.write 1 (fun _ => 1), .write 4294967295 (fun _ => 2)]).map
      (fun s => (s.out, s.buf.nb_frames)) = some ([], 0) ∧
    read_frames [.write 1 (fun _ => 1), .write 4294967295 (fun _ => 2)] = 0 ∧
    written_frames [.write 1 (fun _ => 1), .write 4294967295 (fun _ => 2)] = 4294967296 := by
  have h1 : u32_add 0 1 = 1 := by norm_num [u32_add, UINT32_MOD]
  have h2 : u32_add 1 4294967295 = 0 := by norm_num [u32_add, UINT32_MOD]
  have g1 : ¬ u32_add 0 1 > MAX_NB_FRAMES := by
    rw [h1]; norm_num [MAX_NB_FRAMES]
  have g2 : ¬ u32_add (u32_add 0 1) 4294967295 > MAX_NB_FRAMES := by
    rw [h1, h2]; norm_num [MAX_NB_FRAMES]
  have h := relay_run_write_write 4 (fun _ _ => 0) { blk := 0, off := 0 } 1 4294967295
    (fun _ => 1) (fun _ => 2) g1 g2
  rw [h1, h2] at h
  refine ⟨h, ?_, ?_⟩
  · simp only [read_frames]
  · simp only [written_frames]

/-! ## modules/winwave/play.c -/

/-- Constant `WRITE_BUFFERS` of play.c. -/
def WRITE_BUFFERS : Nat := 4

/-- The value `INC_WPOS(a)` stores into `a`. -/
def INC_WPOS (a : Nat) : Nat := (a + 1) % WRITE_BUFFERS

/-- Error number `ENOTSUP` (Windows CRT). -/
def ENOTSUP : Nat := 129

/-- The fields of `struct auplay_st` the pump and the device callback use.
`bufs_size i` is `bufs[i].mb->size`, `bufs_len i` is
`bufs[i].wh.dwBufferLength`, `wh` tells whether the write handler is non-null,
`inuse` and `sampsz` are `size_t`. -/
structure auplay_st where
  bufs_size : Nat → Nat
  bufs_len : Nat → Nat
  pos : Nat
  rdy : Bool
  inuse : Nat
  sampsz : Nat
  wh : Bool
  run : Bool

/-- What one pass through the loop body of `dsp_write` did: the state, the call
of the write handler `st->wh(buf, sampc, arg)` as (slot, `sampc`) if one was
made, the slot whose header went to `waveOutWrite` if one did, and whether
`waveOutWrite` returned `MMSYSERR_NOERROR`. -/
structure pump_out where
  st : auplay_st
  handler : Option (Nat × Nat)
  written : Option Nat
  posted : Bool

/-- First critical section of the loop body of `dsp_write` (lines 72-74):
the local `inuse` is a copy of `st->inuse`. -/
def dsp_write_snapshot (st : auplay_st) : Nat := st.inuse

/-- Loop body of `dsp_write` between the two critical sections (lines 76-102),
`inuse` being the local copy and `res_ok` telling whether `waveOutWrite`
returns `MMSYSERR_NOERROR`. -/
def dsp_write_body (st : auplay_st) (inuse : Nat) (res_ok : Bool) : pump_out :=
  if !st.rdy then
    { st := st, handler := none, written := none, posted := false }
  else if inuse == WRITE_BUFFERS then
    { st := st, handler := none, written := none, posted := false }
  else
    let slot := st.pos
    let mb_size := st.bufs_size slot
    { st := { st with
                bufs_len := fun i => if i = slot then mb_size else st.bufs_len i
                pos := INC_WPOS st.pos }
      handler := if st.wh then some (slot, mb_size / 2) else none
      written := some slot
      posted := res_ok }

/-- Second critical section of the loop body of `dsp_write` (lines 104-106):
`st->inuse++`. -/
def dsp_write_inc (st : auplay_st) : auplay_st :=
  { st with inuse := (st.inuse + 1) % SIZE_MOD }

/-- One uninterrupted pass through the loop body of `dsp_write`. -/
def dsp_write_iter (st : auplay_st) (res_ok : Bool) : pump_out :=
  let o := dsp_write_body st (dsp_write_snapshot st) res_ok
  if o.posted then { o with st := dsp_write_inc o.st } else o

/-- Messages of the device callback. -/
inductive wave_msg where
  | OPEN
  | DONE
  | CLOSE
  | other
deriving DecidableEq, Repr

/-- Function `waveOutCallback` (`OPEN`, `DONE`, `CLOSE` are `WOM_OPEN`,
`WOM_DONE`, `WOM_CLOSE`). -/
def waveOutCallback (st : auplay_st) : wave_msg → auplay_st
  | .OPEN => { st with rdy := true }
  | .DONE => { st with inuse := (st.inuse + SIZE_MOD - 1) % SIZE_MOD }
  | .CLOSE => { st with rdy := false }
  | .other => st

/-- Function `write_stream_open`.  `sampsz` is `aufmt_sample_size(prm->fmt)`,
`format_known` tells whether `winwave_get_format(prm->fmt)` differs from
`WAVE_FORMAT_UNKNOWN`, `mbuf_alloc n` is the size of the buffer `mbuf_alloc(n)`
returns (`none` for a null result), `open_ok` tells whether `waveOutOpen`
returns `MMSYSERR_NOERROR`; `srate`, `ch`, `ptime` are the fields of `prm`.
Returns the error number and the state. -/
def write_stream_open (st : auplay_st) (sampsz : Nat) (format_known : Bool)
    (srate ch ptime : Nat) (mbuf_alloc : Nat → Option Nat) (open_ok : Bool) :
    Nat × auplay_st :=
  let st := { st with sampsz := sampsz }
  if !format_known then (ENOTSUP, st)
  else
    let st := { st with pos := 0, rdy := false }
    let sampc := u32_mul (u32_mul srate ch) ptime / 1000
    match mbuf_alloc ((st.sampsz * sampc) % SIZE_MOD) with
    | none => (ENOMEM, st)
    | some size =>
      let st := { st with
                    bufs_size := fun i => if i < WRITE_BUFFERS then size else st.bufs_size i
                    bufs_len := fun i => if i < WRITE_BUFFERS then 0 else st.bufs_len i }
      if !open_ok then (EINVAL, st) else (0, st)

/-- The state `mem_zalloc` returns in `winwave_play_alloc`, with the handler
stored by `st->wh = wh`. -/
def auplay_zalloc (wh : Bool) : auplay_st :=
  { bufs_size := fun _ => 0, bufs_len := fun _ => 0, pos := 0, rdy := false, inuse := 0,
    sampsz := 0, wh := wh, run := false }

/-! ### The pump thread and the device running concurrently -/

/-- Where the pump thread is in its loop body: before the first critical
section, after it holding the local copy `inuse`, or after a successful
`waveOutWrite` and before the second critical section. -/
inductive pump_pc where
  | idle
  | snapped (inuse : Nat)
  | posted
deriving DecidableEq, Repr

/-- The stream together with the pump thread's position, the slots the device
owns (handed to `waveOutWrite` successfully and not yet completed, oldest
first), the write-handler calls made so far, and the slots the pump has touched
while the device owned them. -/
structure play_sys where
  st : auplay_st
  pc : pump_pc
  hw : List Nat
  calls : List (Nat × Nat)
  reused : List Nat

/-- Atomic steps: the three pieces of the pump's loop body, a completion
(`WOM_DONE` for the oldest slot the device owns), and the open and close
messages. -/
inductive play_event where
  | snapshot
  | body (res_ok : Bool)
  | inc
  | done
  | opened
  | closed
deriving DecidableEq, Repr

/-- One atomic step; `none` when the step cannot happen in this state. -/
def play_step (s : play_sys) : play_event → Option play_sys
  | .snapshot =>
    match s.pc with
    | .idle => some { s with pc := .snapped (dsp_write_snapshot s.st) }
    | _ => none
  | .body res_ok =>
    match s.pc with
    | .snapped inuse =>
      let o := dsp_write_body s.st inuse res_ok
      some { st := o.st
             pc := if o.posted then .posted else .idle
             hw := if o.posted then s.hw ++ o.written.toList else s.hw
             calls := s.calls ++ o.handler.toList
             reused := s.reused ++ o.written.toList.filter (fun slot => decide (slot ∈ s.hw)) }
    | _ => none
  | .inc =>
    match s.pc with
    | .posted => some { s with st := dsp_write_inc s.st, pc := .idle }
    | _ => none
  | .done =>
    match s.hw with
    | [] => none
    | _ :: rest => some { s with st := waveOutCallback s.st .DONE, hw := rest }
  | .opened => some { s with st := waveOutCallback s.st .OPEN }
  | .closed => some { s with st := waveOutCallback s.st .CLOSE }

/-- A sequence of atomic steps. -/
def play_run (s : play_sys) : List play_event → Option play_sys
  | [] => some s
  | e :: es => (play_step s e).bind (fun s2 => play_run s2 es)

/-- The system when the pump thread starts: the stream as `write_stream_open`
left it, nothing posted. -/
def play_init (st : auplay_st) : play_sys :=
  { st := st, pc := .idle, hw := [], calls := [], reused := [] }

/-- A stream opened for 16-bit mono 8 kHz audio with 20 ms periods. -/
def play_s16 : auplay_st :=
  (write_stream_open (auplay_zalloc true) 2 true 8000 1 20 (fun n => some n) true).2

/-- The stream after `n` uninterrupted passes through the loop body of
`dsp_write` in which every `waveOutWrite` succeeds. -/
def dsp_write_ticks : Nat → auplay_st → auplay_st
  | 0, st => st
  | n + 1, st => (dsp_write_iter (dsp_write_ticks n st) true).st

/-! ### Backpressure -/

theorem dsp_write_iter_posts (st : auplay_st) (res_ok : Bool) (hr : st.rdy = true)
    (hi : st.inuse ≠ WRITE_BUFFERS) :
    (dsp_write_iter st res_ok).written = some st.pos ∧
    (dsp_write_iter st res_ok).posted = res_ok ∧
    (dsp_write_iter st res_ok).handler
      = (if st.wh then some (st.pos, st.bufs_size st.pos / 2) else none) ∧
    (dsp_write_iter st res_ok).st.pos = (st.pos + 1) % WRITE_BUFFERS ∧
    (dsp_write_iter st res_ok).st.rdy = true ∧
    (dsp_write_iter st res_ok).st.inuse
      = (if res_ok then (st.inuse + 1) % SIZE_MOD else st.inuse) := by
  cases res_ok <;>
    simp [dsp_write_iter, dsp_write_body, dsp_write_snapshot, dsp_write_inc, hr, hi, INC_WPOS]

theorem dsp_write_iter_skips (st : auplay_st) (res_ok : Bool)
    (h : st.rdy = false ∨ st.inuse = WRITE_BUFFERS) :
    dsp_write_iter st res_ok = { st := st, handler := none, written := none, posted := false } := by
  rcases h with h | h
  · simp [dsp_write_iter, dsp_write_body, dsp_write_snapshot, h]
  · cases hr : st.rdy <;> simp [dsp_write_iter, dsp_write_body, dsp_write_snapshot, h, hr]

theorem waveOutCallback_DONE_eq (st : auplay_st) :
    waveOutCallback st .DONE = { st with inuse := (st.inuse + SIZE_MOD - 1) % SIZE_MOD } := rfl

theorem waveOutCallback_done (st : auplay_st) :
    (waveOutCallback st .DONE).rdy = st.rdy ∧ (waveOutCallback st .DONE).pos = st.pos ∧
    (waveOutCallback st .DONE).inuse = (st.inuse + SIZE_MOD - 1) % SIZE_MOD := by
  rw [waveOutCallback_DONE_eq]
  exact ⟨rfl, rfl, rfl⟩

/-- Claim C9: from a ready stream with `inuse = 0` and every `waveOutWrite`
succeeding, each of four consecutive pump ticks posts the slot at `pos`, `inuse`
becomes 1, 2, 3, 4 and `pos` advances by one modulo 4 each time; a fifth tick
before any completion changes nothing (neither `pos` nor `inuse`), posts nothing
and does not call the write handler; after one `WOM_DONE` (`inuse = 3`) the next
tick posts again and `inuse` is back at 4. -/
theorem dsp_write_backpressure (st : auplay_st) (hr : st.rdy = true) (hi : st.inuse = 0) :
    (∀ k, k < 4 →
      (dsp_write_ticks k st).inuse = k ∧
      (dsp_write_iter (dsp_write_ticks k st) true).written = some (dsp_write_ticks k st).pos ∧
      (dsp_write_iter (dsp_write_ticks k st) true).posted = true ∧
      (dsp_write_ticks (k + 1) st).inuse = k + 1 ∧
      (dsp_write_ticks (k + 1) st).pos = ((dsp_write_ticks k st).pos + 1) % 4) ∧
    dsp_write_iter (dsp_write_ticks 4 st) true
      = { st := dsp_write_ticks 4 st, handler := none, written := none, posted := false } ∧
    (waveOutCallback (dsp_write_ticks 4 st) .DONE).inuse = 3 ∧
    (waveOutCallback (dsp_write_ticks 4 st) .DONE).pos = (dsp_write_ticks 4 st).pos ∧
    (dsp_write_iter (waveOutCallback (dsp_write_ticks 4 st) .DONE) true).written
      = some (dsp_write_ticks 4 st).pos ∧
    (dsp_write_iter (waveOutCallback (dsp_write_ticks 4 st) .DONE) true).posted = true ∧
    (dsp_write_iter (waveOutCallback (dsp_write_ticks 4 st) .DONE) true).st.inuse = 4 ∧
    (dsp_write_iter (waveOutCallback (dsp_write_ticks 4 st) .DONE) true).st.pos
      = ((dsp_write_ticks 4 st).pos + 1) % 4 := by
  have step : ∀ k, k < 4 → (dsp_write_ticks k st).rdy = true ∧ (dsp_write_ticks k st).inuse = k →
      (dsp_write_ticks (k + 1) st).rdy = true ∧ (dsp_write_ticks (k + 1) st).inuse = k + 1 := by
    intro k hk ⟨h1, h2⟩
    have hne : (dsp_write_ticks k st).inuse ≠ WRITE_BUFFERS := by
      rw [h2]; unfold WRITE_BUFFERS; omega
    obtain ⟨_, _, _, _, h5, h6⟩ := dsp_write_iter_posts (dsp_write_ticks k st) true h1 hne
    refine ⟨h5, ?_⟩
    show (dsp_write_iter (dsp_write_ticks k st) true).st.inuse = k + 1
    rw [h6, h2]
    simp only [if_true]
    apply Nat.mod_eq_of_lt
    unfold SIZE_MOD; omega
  have inv : ∀ k, k ≤ 4 → (dsp_write_ticks k st).rdy = true ∧ (dsp_write_ticks k st).inuse = k := by
    intro k
    induction k with
    | zero => intro _; exact ⟨hr, hi⟩
    | succ k ih => intro hk; exact step k (by omega) (ih (by omega))
  have h4 := inv 4 (le_refl 4)
  have hd : (waveOutCallback (dsp_write_ticks 4 st) .DONE).inuse = 3 := by
    rw [(waveOutCallback_done _).2.2, h4.2]; norm_num [SIZE_MOD]
  have hdr : (waveOutCallback (dsp_write_ticks 4 st) .DONE).rdy = true := by
    rw [(waveOutCallback_done _).1]; exact h4.1
  have hdp : (waveOutCallback (dsp_write_ticks 4 st) .DONE).pos = (dsp_write_ticks 4 st).pos :=
    (waveOutCallback_done _).2.1
  have hdne : (waveOutCallback (dsp_write_ticks 4 st) .DONE).inuse ≠ WRITE_BUFFERS := by
    rw [hd]; unfold WRITE_BUFFERS; omega
  obtain ⟨g1, g2, _, g4, _, g6⟩ :=
    dsp_write_iter_posts (waveOutCallback (dsp_write_ticks 4 st) .DONE) true hdr hdne
  rw [hdp] at g1 g4
  refine ⟨?_, ?_, hd, hdp, g1, g2, ?_, g4⟩
  · intro k hk
    obtain ⟨h1, h2⟩ := inv k (by omega)
    have hne : (dsp_write_ticks k st).inuse ≠ WRITE_BUFFERS := by
      rw [h2]; unfold WRITE_BUFFERS; omega
    obtain ⟨f1, f2, _, f4, _, _⟩ := dsp_write_iter_posts (dsp_write_ticks k st) true h1 hne
    exact ⟨h2, f1, f2, (step k hk ⟨h1, h2⟩).2, f4⟩
  · exact dsp_write_iter_skips _ true (Or.inr h4.2)
  · rw [g6, hd]; norm_num [SIZE_MOD]

theorem play_s16_eq : play_s16 =
    { bufs_size := fun i => if i < WRITE_BUFFERS then 320 else 0
      bufs_len := fun i => if i < WRITE_BUFFERS then 0 else 0
      pos := 0, rdy := false, inuse := 0, sampsz := 2, wh := true, run := false } := by
  have h1 : u32_mul (u32_mul 8000 1) 20 / 1000 = 160 := by norm_num [u32_mul, UINT32_MOD]
  have h2 : (2 * 160) % SIZE_MOD = 320 := by norm_num [SIZE_MOD]
  simp only [play_s16, write_stream_open, auplay_zalloc, h1, h2]
  rfl

theorem play_s16_open : (waveOutCallback play_s16 .OPEN).rdy = true ∧
    (waveOutCallback play_s16 .OPEN).inuse = 0 := by
  rw [play_s16_eq]
  exact ⟨rfl, rfl⟩

/-- Witness of C9 on the stream opened for 16-bit mono 8 kHz audio, made ready
by `WOM_OPEN`. -/
theorem dsp_write_backpressure_witness :
    (waveOutCallback play_s16 .OPEN).rdy = true ∧ (waveOutCallback play_s16 .OPEN).inuse = 0 ∧
    (dsp_write_ticks 4 (waveOutCallback play_s16 .OPEN)).inuse = 4 ∧
    (waveOutCallback (dsp_write_ticks 4 (waveOutCallback play_s16 .OPEN)) .DONE).inuse = 3 :=
  ⟨play_s16_open.1, play_s16_open.2,
    ((dsp_write_backpressure (waveOutCallback play_s16 .OPEN) play_s16_open.1
      play_s16_open.2).1 3 (by decide)).2.2.2.1,
    (dsp_write_backpressure (waveOutCallback play_s16 .OPEN) play_s16_open.1
      play_s16_open.2).2.2.1⟩

/-! ### The sample count handed to the write handler -/

/-- The number of samples `write_stream_open` sizes each slot buffer for. -/
def stream_sampc (srate ch ptime : Nat) : Nat :=
  u32_mul (u32_mul srate ch) ptime / 1000

theorem write_stream_open_ok (st : auplay_st) (sampsz srate ch ptime : Nat)
    (mbuf_alloc : Nat → Option Nat)
    (hm : mbuf_alloc ((sampsz * stream_sampc srate ch ptime) % SIZE_MOD)
      = some ((sampsz * stream_sampc srate ch ptime) % SIZE_MOD)) :
    write_stream_open st sampsz true srate ch ptime mbuf_alloc true =
      (0, { st with
              sampsz := sampsz, pos := 0, rdy := false
              bufs_size := fun i =>
                if i < WRITE_BUFFERS then (sampsz * stream_sampc srate ch ptime) % SIZE_MOD
                else st.bufs_size i
              bufs_len := fun i => if i < WRITE_BUFFERS then 0 else st.bufs_len i }) := by
  unfold stream_sampc at hm
  simp only [write_stream_open, Bool.not_true, Bool.false_eq_true, if_false, hm, stream_sampc]

/-- For 16-bit samples (`sampsz = 2`) the first tick of a freshly opened,
ready stream hands the write handler exactly the `sampc` samples the slot was
allocated for, and the header length is the buffer size. -/
theorem dsp_write_s16_sampc (st : auplay_st) (srate ch ptime : Nat)
    (mbuf_alloc : Nat → Option Nat) (res_ok : Bool) (hwh : st.wh = true)
    (hi : st.inuse ≠ WRITE_BUFFERS)
    (hm : mbuf_alloc ((2 * stream_sampc srate ch ptime) % SIZE_MOD)
      = some ((2 * stream_sampc srate ch ptime) % SIZE_MOD)) :
    (dsp_write_iter (waveOutCallback
        (write_stream_open st 2 true srate ch ptime mbuf_alloc true).2 .OPEN) res_ok).handler
      = some (0, stream_sampc srate ch ptime) := by
  have hlt : stream_sampc srate ch ptime < 2 ^ 32 := by
    unfold stream_sampc u32_mul UINT32_MOD
    have := Nat.mod_lt (u32_mul srate ch * ptime) (show 0 < 2 ^ 32 by norm_num)
    unfold u32_mul UINT32_MOD at this
    omega
  have hsz : (2 * stream_sampc srate ch ptime) % SIZE_MOD = 2 * stream_sampc srate ch ptime := by
    apply Nat.mod_eq_of_lt
    unfold SIZE_MOD; omega
  rw [write_stream_open_ok st 2 srate ch ptime mbuf_alloc hm, hsz]
  have h := (dsp_write_iter_posts (waveOutCallback
      { st with
          sampsz := 2, pos := 0, rdy := false
          bufs_size := fun i =>
            if i < WRITE_BUFFERS then 2 * stream_sampc srate ch ptime else st.bufs_size i
          bufs_len := fun i => if i < WRITE_BUFFERS then 0 else st.bufs_len i } .OPEN)
      res_ok rfl hi).2.2.1
  rw [h]
  simp [waveOutCallback, hwh, WRITE_BUFFERS]

/-- The stream `write_stream_open` leaves for 32-bit float samples
(`sampsz = 4`), mono, 8 kHz, 20 ms periods. -/
def play_float : auplay_st :=
  (write_stream_open (auplay_zalloc true) 4 true 8000 1 20 (fun n => some n) true).2

/-- Claim C10 fails on the code: for 32-bit float samples (`sampsz = 4`) at
8 kHz mono with 20 ms periods each slot is allocated for `sampc = 160` samples
(640 bytes), yet the first pump tick calls the write handler with
`mb->size / 2 = 320` samples, twice what the buffer holds, and then posts the
buffer with `dwBufferLength = 640`. -/
theorem dsp_write_float_sampc :
    play_float.sampsz = 4 ∧
    stream_sampc 8000 1 20 = 160 ∧
    play_float.bufs_size 0 = 4 * 160 ∧
    (dsp_write_iter (waveOutCallback play_float .OPEN) true).handler = some (0, 320) ∧
    (dsp_write_iter (waveOutCallback play_float .OPEN) true).st.bufs_len 0 = 640 := by
  have h1 : stream_sampc 8000 1 20 = 160 := by
    norm_num [stream_sampc, u32_mul, UINT32_MOD]
  have h2 : (4 * 160) % SIZE_MOD = 640 := by norm_num [SIZE_MOD]
  have e : play_float =
      { bufs_size := fun i => if i < WRITE_BUFFERS then 640 else 0
        bufs_len := fun i => if i < WRITE_BUFFERS then 0 else 0
        pos := 0, rdy := false, inuse := 0, sampsz := 4, wh := true, run := false } := by
    unfold play_float
    rw [write_stream_open_ok _ 4 8000 1 20 (fun n => some n) rfl, h1, h2]
    rfl
  rw [e]
  refine ⟨rfl, h1, by simp [WRITE_BUFFERS], ?_, ?_⟩
  · simp [dsp_write_iter, dsp_write_body, dsp_write_snapshot, dsp_write_inc, waveOutCallback,
      WRITE_BUFFERS]
  · simp [dsp_write_iter, dsp_write_body, dsp_write_snapshot, dsp_write_inc, waveOutCallback,
      WRITE_BUFFERS]

/-! ## modules/winwave/src.c -/

/-- Constant `READ_BUFFERS` of src.c. -/
def READ_BUFFERS : Nat := 4

/-- The value `INC_RPOS(a)` stores into `a`. -/
def INC_RPOS (a : Nat) : Nat := (a + 1) % READ_BUFFERS

/-- The fields of `struct ausrc_st` the pump and the device callback use.
`bufs_size i` is `bufs[i].mb->size`, `bufs_len i` is
`bufs[i].wh.dwBufferLength`, `bufs_rec i` is `bufs[i].wh.dwBytesRecorded`, `rh`
tells whether the read handler is non-null. -/
structure ausrc_st where
  bufs_size : Nat → Nat
  bufs_len : Nat → Nat
  bufs_rec : Nat → Nat
  pos : Nat
  rdy : Bool
  inuse : Nat
  sampsz : Nat
  rh : Bool
  run : Bool

/-- What one pass through the loop body of `add_wave_in` did: the state, the
call of the read handler as (slot, `af.sampc`) if one was made, the slot whose
header went to `waveInAddBuffer` if one did, and whether `waveInAddBuffer`
returned `MMSYSERR_NOERROR`. -/
structure src_out where
  st : ausrc_st
  handler : Option (Nat × Nat)
  written : Option Nat
  posted : Bool

/-- First critical section of the loop body of `add_wave_in` (lines 87-89). -/
def add_wave_in_snapshot (st : ausrc_st) : Nat := st.inuse

/-- Loop body of `add_wave_in` between the two critical sections (lines
91-123), `inuse` being the local copy and `res_ok` telling whether
`waveInAddBuffer` returns `MMSYSERR_NOERROR`. -/
def add_wave_in_body (st : ausrc_st) (inuse : Nat) (res_ok : Bool) : src_out :=
  if !st.rdy then
    { st := st, handler := none, written := none, posted := false }
  else if inuse == READ_BUFFERS then
    { st := st, handler := none, written := none, posted := false }
  else
    let slot := st.pos
    let mb_size := st.bufs_size slot
    { st := { st with
                bufs_len := fun i => if i = slot then mb_size else st.bufs_len i
                bufs_rec := fun i => if i = slot then 0 else st.bufs_rec i
                pos := INC_RPOS st.pos }
      handler := if st.rh then some (slot, st.bufs_rec slot / st.sampsz) else none
      written := some slot
      posted := res_ok }

/-- Second critical section of the loop body of `add_wave_in` (lines 125-127):
`st->inuse++`. -/
def add_wave_in_inc (st : ausrc_st) : ausrc_st :=
  { st with inuse := (st.inuse + 1) % SIZE_MOD }

/-- Function `waveInCallback` (`OPEN`, `DONE`, `CLOSE` are `WIM_OPEN`,
`WIM_DATA`, `WIM_CLOSE`). -/
def waveInCallback (st : ausrc_st) : wave_msg → ausrc_st
  | .CLOSE => { st with rdy := false }
  | .OPEN => { st with rdy := true }
  | .DONE => { st with inuse := (st.inuse + SIZE_MOD - 1) % SIZE_MOD }
  | .other => st

/-- The capture stream with the pump thread's position, the slots the device
owns (oldest first) and the slots the pump has touched while the device owned
them. -/
structure src_sys where
  st : ausrc_st
  pc : pump_pc
  hw : List Nat
  reused : List Nat

/-- One atomic step of the capture stream; a completion stores the number of
bytes recorded, here the whole buffer, in the header of the oldest slot the
device owns. -/
def src_step (s : src_sys) : play_event → Option src_sys
  | .snapshot =>
    match s.pc with
    | .idle => some { s with pc := .snapped (add_wave_in_snapshot s.st) }
    | _ => none
  | .body res_ok =>
    match s.pc with
    | .snapped inuse =>
      let o := add_wave_in_body s.st inuse res_ok
      some { st := o.st
             pc := if o.posted then .posted else .idle
             hw := if o.posted then s.hw ++ o.written.toList else s.hw
             reused := s.reused ++ o.written.toList.filter (fun slot => decide (slot ∈ s.hw)) }
    | _ => none
  | .inc =>
    match s.pc with
    | .posted => some { s with st := add_wave_in_inc s.st, pc := .idle }
    | _ => none
  | .done =>
    match s.hw with
    | [] => none
    | slot :: rest =>
      some { s with
             st := waveInCallback
               { s.st with
                 bufs_rec := fun i => if i = slot then s.st.bufs_len slot else s.st.bufs_rec i }
               .DONE
             hw := rest }
  | .opened => some { s with st := waveInCallback s.st .OPEN }
  | .closed => some { s with st := waveInCallback s.st .CLOSE }

/-- A sequence of atomic steps of the capture stream. -/
def src_run (s : src_sys) : List play_event → Option src_sys
  | [] => some s
  | e :: es => (src_step s e).bind (fun s2 => src_run s2 es)

/-- Function `read_stream_open`, with the parameters of `write_stream_open`;
the copy `st->prm = *prm` is not among the modelled fields.  Returns the error
number and the state. -/
def read_stream_open (st : ausrc_st) (sampsz : Nat) (format_known : Bool)
    (srate ch ptime : Nat) (mbuf_alloc : Nat → Option Nat) (open_ok : Bool) :
    Nat × ausrc_st :=
  let st := { st with sampsz := sampsz }
  if !format_known then (ENOTSUP, st)
  else
    let st := { st with pos := 0, rdy := false }
    let sampc := u32_mul (u32_mul srate ch) ptime / 1000
    match mbuf_alloc ((st.sampsz * sampc) % SIZE_MOD) with
    | none => (ENOMEM, st)
    | some size =>
      let st := { st with
                    bufs_size := fun i => if i < READ_BUFFERS then size else st.bufs_size i
                    bufs_len := fun i => if i < READ_BUFFERS then 0 else st.bufs_len i
                    bufs_rec := fun i => if i < READ_BUFFERS then 0 else st.bufs_rec i }
      if !open_ok then (EINVAL, st) else (0, st)

/-- The state `mem_zalloc` returns in `winwave_src_alloc`, with the handler
stored by `st->rh = rh`. -/
def ausrc_zalloc (rh : Bool) : ausrc_st :=
  { bufs_size := fun _ => 0, bufs_len := fun _ => 0, bufs_rec := fun _ => 0, pos := 0,
    rdy := false, inuse := 0, sampsz := 0, rh := rh, run := false }

/-- A capture stream as `read_stream_open` leaves it for 16-bit mono 8 kHz audio
with 20 ms periods (`sampc = 160`, buffers of 320 bytes), nothing posted. -/
def src_s16 : src_sys :=
  { st := (read_stream_open (ausrc_zalloc true) 2 true 8000 1 20 (fun n => some n) true).2
    pc := .idle, hw := [], reused := [] }

/-! ### Races between the pump thread and the device -/

/-- A completion arriving between a successful post and the increment of
`inuse`: open, first critical section, body with a successful post, completion
of that buffer. -/
def wrap_trace : List play_event := [.opened, .snapshot, .body true, .done]

/-- One successful post, three failing posts, then a further tick, with no
completion in between. -/
def reuse_trace : List play_event :=
  [.opened, .snapshot, .body true, .inc, .snapshot, .body false, .snapshot, .body false,
   .snapshot, .body false, .snapshot, .body true]

/-- Claim C7 fails on the code: when the completion of the first posted buffer
(`WOM_DONE`, `WIM_DATA`) arrives after `waveOutWrite` / `waveInAddBuffer` has
succeeded and before the pump re-enters the critical section for `inuse++`,
`inuse--` is applied to `0` and `inuse` wraps to `2 ^ 64 - 1`, which exceeds
`N = 4`.  Both the playback and the capture ring reach that state. -/
theorem inuse_wraps_on_early_completion :
    (play_run (play_init play_s16) wrap_trace).map (fun s => (s.st.inuse, s.hw, s.pc))
      = some (18446744073709551615, [], .posted) ∧
    (src_run src_s16 wrap_trace).map (fun s => (s.st.inuse, s.hw, s.pc))
      = some (18446744073709551615, [], .posted) ∧
    WRITE_BUFFERS < 18446744073709551615 ∧ READ_BUFFERS < 18446744073709551615 := by
  decide

/-- Claim C8 fails on the code: after one successful post (slot 0) and three
failing posts (`pos` advances on each, `inuse` stays 1), the next tick is not
skipped and hands slot 0 to the handler and posts it again although the device
still owns it (no completion has arrived).  Both the playback and the capture
ring do so. -/
theorem slot_reused_after_failed_posts :
    (play_run (play_init play_s16) reuse_trace).map
        (fun s => (s.reused, s.hw, s.st.pos, s.st.inuse)) = some ([0], [0, 0], 1, 1) ∧
    (src_run src_s16 reuse_trace).map
        (fun s => (s.reused, s.hw, s.st.pos, s.st.inuse)) = some ([0], [0, 0], 1, 1) := by
  decide

/-! ### What holds of `inuse` under every interleaving -/

/-- The relation between `inuse` and the slots the device owns: they agree
whenever the pump thread is not between a successful post and its `inuse++`,
and in between `inuse` is one behind (modulo `2 ^ 64`). -/
def play_inv (s : play_sys) : Prop :=
  s.st.inuse < SIZE_MOD ∧ s.hw.length ≤ WRITE_BUFFERS ∧
  match s.pc with
  | .idle => s.st.inuse = s.hw.length
  | .snapped n => s.st.inuse = s.hw.length ∧ s.hw.length ≤ n ∧ n ≤ WRITE_BUFFERS
  | .posted => (s.st.inuse + 1) % SIZE_MOD = s.hw.length

theorem dsp_write_body_cases (st : auplay_st) (n : Nat) (res_ok : Bool) :
    (dsp_write_body st n res_ok = { st := st, handler := none, written := none, posted := false }
      ∧ (st.rdy = false ∨ n = WRITE_BUFFERS)) ∨
    ((dsp_write_body st n res_ok).written = some st.pos ∧
      (dsp_write_body st n res_ok).posted = res_ok ∧
      (dsp_write_body st n res_ok).st.inuse = st.inuse ∧
      (dsp_write_body st n res_ok).st.pos = (st.pos + 1) % WRITE_BUFFERS ∧
      (dsp_write_body st n res_ok).st.rdy = st.rdy ∧
      st.rdy = true ∧ n ≠ WRITE_BUFFERS) := by
  cases hr : st.rdy
  · left; simp [dsp_write_body, hr]
  · by_cases hn : n = WRITE_BUFFERS
    · left; simp [dsp_write_body, hr, hn]
    · right; simp [dsp_write_body, hr, hn, INC_WPOS]

theorem play_step_inv (s s2 : play_sys) (e : play_event) (h : play_step s e = some s2)
    (hi : play_inv s) : play_inv s2 := by
  obtain ⟨st, pc, hw, calls, reused⟩ := s
  obtain ⟨h1, h2, h3⟩ := hi
  simp only at h1 h2 h3
  cases e with
  | snapshot =>
    cases pc with
    | idle =>
      simp only [play_step, Option.some.injEq] at h
      subst h
      simp only at h3
      exact ⟨h1, h2, h3, by simp only [dsp_write_snapshot]; omega,
        by simp only [dsp_write_snapshot]; omega⟩
    | snapped n => simp [play_step] at h
    | posted => simp [play_step] at h
  | body res_ok =>
    cases pc with
    | idle => simp [play_step] at h
    | posted => simp [play_step] at h
    | snapped n =>
      simp only [play_step, Option.some.injEq] at h
      subst h
      simp only at h3
      rcases dsp_write_body_cases st n res_ok with ⟨hb, _⟩ | ⟨b1, b2, b3, _, _, _, b7⟩
      · rw [hb]
        exact ⟨h1, h2, h3.1⟩
      · cases res_ok with
        | false =>
          refine ⟨by simp only [b3]; exact h1, by simp only [b2]; exact h2, ?_⟩
          simp only [b2, b3]
          exact h3.1
        | true =>
          have hlen : (hw ++ [st.pos]).length = hw.length + 1 := by simp
          refine ⟨by simp only [b3]; exact h1, ?_, ?_⟩
          · simp only [b1, b2, if_true, Option.toList_some, hlen]
            unfold WRITE_BUFFERS at *
            omega
          · simp only [b1, b2, b3, if_true, Option.toList_some, hlen]
            unfold WRITE_BUFFERS at *
            unfold SIZE_MOD
            omega
  | inc =>
    cases pc with
    | idle => simp [play_step] at h
    | snapped n => simp [play_step] at h
    | posted =>
      simp only [play_step, Option.some.injEq] at h
      subst h
      simp only at h3
      refine ⟨?_, h2, ?_⟩
      · simp only [dsp_write_inc]
        exact Nat.mod_lt _ (by unfold SIZE_MOD; norm_num)
      · simp only [dsp_write_inc]
        exact h3
  | done =>
    cases hw with
    | nil => simp [play_step] at h
    | cons x rest =>
      simp only [play_step, Option.some.injEq] at h
      subst h
      simp only [List.length_cons] at h2 h3
      rw [waveOutCallback_DONE_eq]
      refine ⟨Nat.mod_lt _ (by unfold SIZE_MOD; norm_num), by show rest.length ≤ _; omega, ?_⟩
      cases pc with
      | idle =>
        simp only at h3 ⊢
        unfold SIZE_MOD at *
        omega
      | snapped n =>
        simp only at h3 ⊢
        unfold SIZE_MOD at *
        omega
      | posted =>
        simp only at h3 ⊢
        unfold SIZE_MOD at *
        omega
  | opened =>
    simp only [play_step, Option.some.injEq] at h
    subst h
    exact ⟨h1, h2, h3⟩
  | closed =>
    simp only [play_step, Option.some.injEq] at h
    subst h
    exact ⟨h1, h2, h3⟩

theorem play_run_inv (es : List play_event) (s s2 : play_sys)
    (h : play_run s es = some s2) (hi : play_inv s) : play_inv s2 := by
  induction es generalizing s with
  | nil =>
    simp only [play_run, Option.some.injEq] at h
    subst h
    exact hi
  | cons e es ih =>
    simp only [play_run] at h
    cases hstep : play_step s e with
    | none => rw [hstep] at h; simp at h
    | some s1 =>
      rw [hstep] at h
      simp only [Option.some_bind] at h
      exact ih s1 h (play_step_inv s s1 e hstep hi)

/-- Under every interleaving of the pump's critical sections, post outcomes,
completions of posted buffers and open/close messages: `inuse` is the number of
slots the device owns, hence between `0` and `N = 4`, in every state in which
the pump thread is not between a successful post and its `inuse++`; and every
value the pump reads in its first critical section is at most `N`. -/
theorem play_inuse_bounded_outside_window (st0 : auplay_st) (es : List play_event)
    (s : play_sys) (h0 : st0.inuse = 0) (h : play_run (play_init st0) es = some s) :
    (s.pc ≠ .posted → s.st.inuse = s.hw.length ∧ s.st.inuse ≤ WRITE_BUFFERS) ∧
    (∀ n, s.pc = .snapped n → n ≤ WRITE_BUFFERS) := by
  have hi : play_inv (play_init st0) := by
    refine ⟨?_, ?_, ?_⟩
    · show st0.inuse < SIZE_MOD
      rw [h0]; unfold SIZE_MOD; norm_num
    · show ([] : List Nat).length ≤ WRITE_BUFFERS
      simp
    · show st0.inuse = ([] : List Nat).length
      rw [h0]; rfl
  obtain ⟨_, i2, i3⟩ := play_run_inv es _ s h hi
  refine ⟨?_, ?_⟩
  · intro hpc
    cases hp : s.pc with
    | idle => rw [hp] at i3; simp only at i3; exact ⟨i3, by omega⟩
    | snapped n => rw [hp] at i3; simp only at i3; exact ⟨i3.1, by omega⟩
    | posted => exact absurd hp hpc
  · intro n hn
    rw [hn] at i3
    exact i3.2.2

/-! ### Slot reuse when every post succeeds -/

/-- The `len` slots preceding `pos` in ring order, oldest first. -/
def ring_window (pos len : Nat) : List Nat :=
  (List.range len).map (fun i => (pos + (WRITE_BUFFERS - len) + i) % WRITE_BUFFERS)

theorem ring_window_length (p l : Nat) : (ring_window p l).length = l := by
  simp [ring_window]

theorem ring_window_snoc (p l : Nat) (hp : p < 4) (hl : l < 4) :
    ring_window p l ++ [p] = ring_window ((p + 1) % WRITE_BUFFERS) (l + 1) := by
  interval_cases p <;> interval_cases l <;> decide

theorem ring_window_cons (p l : Nat) (hp : p < 4) (hl : l < 4) :
    (ring_window p (l + 1)).tail = ring_window p l := by
  interval_cases p <;> interval_cases l <;> decide

theorem ring_window_not_mem (p l : Nat) (hp : p < 4) (hl : l < 4) :
    p ∉ ring_window p l := by
  interval_cases p <;> interval_cases l <;> decide

/-- The slots the device owns are the ones just before `pos`, and no slot has
been touched while the device owned it. -/
def play_ring_inv (s : play_sys) : Prop :=
  s.st.pos < 4 ∧ s.hw = ring_window s.st.pos s.hw.length ∧ s.reused = []

theorem play_ring_inv_iff (s : play_sys) :
    play_ring_inv s ↔ s.st.pos < 4 ∧ s.hw = ring_window s.st.pos s.hw.length ∧ s.reused = [] :=
  Iff.rfl

theorem play_step_ring_inv (s s2 : play_sys) (e : play_event)
    (h : play_step s e = some s2) (he : e ≠ .body false)
    (hi : play_inv s) (hr : play_ring_inv s) : play_ring_inv s2 := by
  obtain ⟨st, pc, hw, calls, reused⟩ := s
  obtain ⟨h1, h2, h3⟩ := hi
  obtain ⟨r1, r2, r3⟩ := hr
  simp only at h1 h2 h3 r1 r2 r3
  cases e with
  | snapshot =>
    cases pc with
    | idle =>
      simp only [play_step, Option.some.injEq] at h
      subst h
      exact ⟨r1, r2, r3⟩
    | snapped n => simp [play_step] at h
    | posted => simp [play_step] at h
  | body res_ok =>
    cases pc with
    | idle => simp [play_step] at h
    | posted => simp [play_step] at h
    | snapped n =>
      simp only [play_step, Option.some.injEq] at h
      subst h
      simp only at h3
      cases res_ok with
      | false => exact absurd rfl he
      | true =>
        rcases dsp_write_body_cases st n true with ⟨hb, _⟩ | ⟨b1, b2, _, b4, _, _, b7⟩
        · rw [hb]
          simp only [play_ring_inv, Bool.false_eq_true, if_false, Option.toList_none,
            List.filter_nil, List.append_nil]
          exact ⟨r1, r2, r3⟩
        · have hlen : hw.length < 4 := by
            unfold WRITE_BUFFERS at *
            omega
          have hnm : st.pos ∉ hw := by
            rw [r2]; exact ring_window_not_mem _ _ r1 hlen
          refine ⟨?_, ?_, ?_⟩
          · simp only [b4]
            exact Nat.mod_lt _ (by unfold WRITE_BUFFERS; norm_num)
          · simp only [b1, b2, b4, if_true, Option.toList_some, List.length_append,
              List.length_singleton]
            rw [← ring_window_snoc _ _ r1 hlen, ← r2]
          · simp only [b1, Option.toList_some, r3, List.nil_append]
            simp [hnm]
  | inc =>
    cases pc with
    | idle => simp [play_step] at h
    | snapped n => simp [play_step] at h
    | posted =>
      simp only [play_step, Option.some.injEq] at h
      subst h
      simp only [play_ring_inv, dsp_write_inc]
      exact ⟨r1, r2, r3⟩
  | done =>
    cases hw with
    | nil => simp [play_step] at h
    | cons x rest =>
      simp only [play_step, Option.some.injEq] at h
      subst h
      simp only [List.length_cons] at h2 r2
      rw [play_ring_inv_iff]
      dsimp only
      rw [(waveOutCallback_done st).2.1]
      have hl : rest.length < 4 := by
        unfold WRITE_BUFFERS at h2; omega
      have := ring_window_cons st.pos rest.length r1 hl
      rw [← r2] at this
      exact ⟨r1, this, r3⟩
  | opened =>
    simp only [play_step, Option.some.injEq] at h
    subst h
    simp only [play_ring_inv, waveOutCallback]
    exact ⟨r1, r2, r3⟩
  | closed =>
    simp only [play_step, Option.some.injEq] at h
    subst h
    simp only [play_ring_inv, waveOutCallback]
    exact ⟨r1, r2, r3⟩

theorem play_run_ring_inv (es : List play_event) (s s2 : play_sys)
    (h : play_run s es = some s2) (he : ∀ e ∈ es, e ≠ .body false)
    (hi : play_inv s) (hr : play_ring_inv s) : play_ring_inv s2 := by
  induction es generalizing s with
  | nil =>
    simp only [play_run, Option.some.injEq] at h
    subst h
    exact hr
  | cons e es ih =>
    simp only [play_run] at h
    cases hstep : play_step s e with
    | none => rw [hstep] at h; simp at h
    | some s1 =>
      rw [hstep] at h
      simp only [Option.some_bind] at h
      exact ih s1 h (fun e2 h2 => he e2 (List.mem_cons_of_mem _ h2))
        (play_step_inv s s1 e hstep hi)
        (play_step_ring_inv s s1 e hstep (he e (List.mem_cons_self _ _)) hi hr)

/-- When no post fails, under every interleaving of the pump's critical
sections, completions in posting order and open/close messages, the pump never
touches a slot the device still owns. -/
theorem play_no_reuse_when_posts_succeed (st0 : auplay_st) (es : List play_event)
    (s : play_sys) (h0 : st0.inuse = 0) (hp : st0.pos = 0)
    (he : ∀ e ∈ es, e ≠ .body false)
    (h : play_run (play_init st0) es = some s) : s.reused = [] := by
  have hi : play_inv (play_init st0) := by
    refine ⟨?_, ?_, ?_⟩
    · show st0.inuse < SIZE_MOD
      rw [h0]; unfold SIZE_MOD; norm_num
    · show ([] : List Nat).length ≤ WRITE_BUFFERS
      simp
    · show st0.inuse = ([] : List Nat).length
      rw [h0]; rfl
  have hr : play_ring_inv (play_init st0) := by
    refine ⟨?_, ?_, rfl⟩
    · show st0.pos < 4
      omega
    · show ([] : List Nat) = ring_window st0.pos 0
      rfl
  exact (play_run_ring_inv es _ s h he hi hr).2.2

/-! ## audiounit.c: writes following a read -/

/-- Whether an operation is a write. -/
def relay_op.is_write : relay_op → Bool
  | .write _ _ => true
  | .read _ => false

/-- The buffer and pointer after `read(1200)` on the scenario buffer. -/
def after_read : Ret := init_data_read scenario_1500 { blk := 0, off := 0 } 4 1200

/-- A wrapping write: 300 frames are buffered and `4294967196` are requested. -/
def wrapped_write : Ret := init_data_write after_read.buf after_read.data 4 4294967196

/-- The write following the wrapping write, the region of which the client has
filled. -/
def next_write : Ret :=
  init_data_write (fill wrapped_write.buf wrapped_write.data (4294967196 * 4) (fun _ => 7))
    wrapped_write.data 4 1

theorem relay_step_write_frame (framesz : Nat) (s s2 : relay_state) (c : Nat)
    (src : Nat → UInt8) (h : relay_step framesz s (.write c src) = some s2) :
    s2.out = s.out ∧ s2.buf.mem_idx = s.buf.mem_idx ∧
    ∀ b j, b ≠ s.buf.mem_idx → s2.buf.mem b j = s.buf.mem b j := by
  simp only [relay_step] at h
  by_cases hg : u32_add s.buf.nb_frames c > MAX_NB_FRAMES
  · rw [init_data_write_err _ _ _ _ hg] at h
    simp [kAudioUnitErr_TooManyFramesToProcess, noErr] at h
  · rw [init_data_write_ok _ _ _ _ hg] at h
    simp only [if_true, Option.some.injEq] at h
    subst h
    refine ⟨rfl, rfl, ?_⟩
    intro b j hb
    apply fill_mem_outside
    intro hcon
    exact hb hcon.1

theorem relay_run_writes_frame (framesz : Nat) (ops : List relay_op) (s s2 : relay_state)
    (hw : ∀ op ∈ ops, op.is_write = true)
    (h : relay_run framesz s ops = some s2) :
    s2.out = s.out ∧ s2.buf.mem_idx = s.buf.mem_idx ∧ read_frames ops = 0 ∧
    ∀ b j, b ≠ s.buf.mem_idx → s2.buf.mem b j = s.buf.mem b j := by
  induction ops generalizing s with
  | nil =>
    simp only [relay_run, Option.some.injEq] at h
    subst h
    exact ⟨rfl, rfl, rfl, fun _ _ _ => rfl⟩
  | cons op ops ih =>
    simp only [relay_run] at h
    cases hstep : relay_step framesz s op with
    | none => rw [hstep] at h; simp at h
    | some s1 =>
      rw [hstep] at h
      simp only [Option.some_bind] at h
      have hw2 : ∀ o ∈ ops, o.is_write = true := fun o ho => hw o (List.mem_cons_of_mem _ ho)
      cases op with
      | read c =>
        have := hw (.read c) (List.mem_cons_self _ _)
        simp [relay_op.is_write] at this
      | write c src =>
        obtain ⟨h1, h2, h3⟩ := relay_step_write_frame framesz s s1 c src hstep
        obtain ⟨i1, i2, i3, i4⟩ := ih s1 hw2 h
        refine ⟨i1.trans h1, i2.trans h2, ?_, ?_⟩
        · simpa [read_frames] using i3
        · intro b j hb
          rw [i4 b j (by rw [h2]; exact hb), h3 b j hb]

/-- Apart from 32-bit wrap-around (every count below `2 ^ 32 - 4096`): after a
successful read of `c` frames from block `mem[i]`, any sequence of successful
writes, each filling the region it was handed, leaves every byte of `mem[i]`
(so the returned view) as it was, keeps `mem[(i+1) % 2]` the active block, and
the buffered frames are the carried-over remainder followed directly by the
bytes written, in order. -/
theorem writes_after_read_no_wrap (framesz : Nat) (buf : conv_buf) (data : Ptr) (c : Nat)
    (ops : List relay_op) (s2 : relay_state)
    (hf : buf.nb_frames ≤ MAX_NB_FRAMES) (hc : c ≤ buf.nb_frames)
    (hw : ∀ op ∈ ops, op.is_write = true)
    (hn : ∀ op ∈ ops, op.count + MAX_NB_FRAMES < UINT32_MOD)
    (h : relay_run framesz
        { buf := (init_data_read buf data framesz c).buf
          data := (init_data_read buf data framesz c).data
          out := [] } ops = some s2) :
    (∀ j, s2.buf.mem buf.mem_idx j = buf.mem buf.mem_idx j) ∧
    view s2.buf.mem { blk := buf.mem_idx, off := 0 } (c * framesz)
      = view buf.mem { blk := buf.mem_idx, off := 0 } (c * framesz) ∧
    s2.buf.mem_idx = (buf.mem_idx + 1) % 2 ∧
    pending framesz s2.buf
      = view buf.mem { blk := buf.mem_idx, off := c * framesz } ((buf.nb_frames - c) * framesz)
        ++ written_bytes framesz ops ∧
    s2.buf.nb_frames = (buf.nb_frames - c) + written_frames ops := by
  have hf2 : buf.nb_frames < UINT32_MOD := by
    unfold MAX_NB_FRAMES at hf; unfold UINT32_MOD; omega
  obtain ⟨_, _, r3, _, r5, r6, r7, r8⟩ := init_data_read_success buf data framesz c hf2 hc
  obtain ⟨f1, f2, f3, f4⟩ := relay_run_writes_frame framesz ops _ s2 hw h
  have hv : (init_data_read buf data framesz c).buf.nb_frames ≤ MAX_NB_FRAMES := by
    rw [r5]; omega
  obtain ⟨g1, g2⟩ := relay_run_conserves framesz ops _ s2 hv hn h
  simp only at f1 f2 f4 g1 g2
  have hblk : ∀ j, s2.buf.mem buf.mem_idx j = buf.mem buf.mem_idx j := by
    intro j
    rw [f4 buf.mem_idx j (fun hcon => r7 hcon.symm), r3 j]
  refine ⟨hblk, ?_, f2.trans r6, ?_, ?_⟩
  · apply view_congr
    intro j _
    exact hblk _
  · rw [f1] at g1
    simp only [List.nil_append] at g1
    rw [g1]
    congr 1
    unfold pending
    rw [r5]
    exact r8
  · rw [f3, r5] at g2
    omega

/-- Claim C11 fails on the code: after `read(1200)` on the scenario buffer the
view is `mem[0]` and the 300 remaining frames are at the start of `mem[1]`;
`write(4294967196)` then returns `noErr` (the `uint32_t` sum `300 + 4294967196`
wraps to `200`) and leaves `nb_frames = 200`, so the following `write(1)` is
handed byte offset `800`, frame 200 of `mem[1]`, inside the carried-over
remainder instead of directly after the previous write, and the client filling
that region overwrites the remainder (byte 800 goes from 0 to 9). -/
theorem write_after_wrap_overwrites_remainder :
    (after_read.status, after_read.data, after_read.buf.mem_idx, after_read.buf.nb_frames)
      = (noErr, { blk := 0, off := 0 }, 1, 300) ∧
    (wrapped_write.status, wrapped_write.data, wrapped_write.buf.nb_frames)
      = (noErr, { blk := 1, off := 1200 }, 200) ∧
    (next_write.status, next_write.data, next_write.buf.nb_frames)
      = (noErr, { blk := 1, off := 800 }, 201) ∧
    after_read.buf.mem 1 800 = 0 ∧
    (fill next_write.buf next_write.data (1 * 4) (fun _ => 9)).mem 1 800 = 9 := by
  decide

end Baresip
